import Mathlib

/-!
Shallow embedding of `homeassistant-samsung-frametv-artchanger/art.py`.

The script keeps a persistent list `uploaded_files` of records
`{file, remote_filename, tv_ip, source}`, decides per TV whether to reselect
an already-uploaded artifact or to fetch/prepare/upload a fresh one, and
orchestrates this over one or more TVs in two modes (distinct image per TV,
or one shared image).  External collaborators (the TV websocket client, the
image source modules, the resize utility, the filesystem) are modelled as
oracle functions collected in `Env`.
-/

namespace FrameArt

/-- Raw image bytes, opaque to the core logic (`BytesIO` contents). -/
abbrev Bytes := Nat

/-- One element of the persisted `uploaded_files` JSON list
(`art.py` lines 174-179).  `file` and `source` are `Option` because the
script can in principle thread Python `None` through those positions;
`remote_filename` is written only from a non-`None` upload response. -/
structure Entry where
  file : Option String
  remote_filename : String
  tv_ip : Option String
  source : Option String
deriving DecidableEq, Repr

/-- Result of `tv.art().select_image(...)`: success, a `ResponseError`
(art.py line 142), or any other exception (line 147).  The two error kinds
are logged differently but handled identically. -/
inductive SelectResult
  | ok
  | responseError
  | otherError
deriving DecidableEq, Repr

/-- Oracle for one TV (`SamsungTVWS(tv_ip)`):
`supported` models `tv.art().supported()`;
`select` models `tv.art().select_image(name, show=True)`;
`upload` models `tv.art().upload(bytes, file_type, matte)` where `none`
is a raised exception and `some r` is a returned value (`r = none` being
Python `None`). -/
structure TV where
  supported : Bool
  select : String → SelectResult
  upload : Bytes → String → Option (Option String)

/-- Oracles for everything outside the core: image sources
(`get_image_url` / `get_image`, which per the collaborator contract of the
spec return bytes together with a mime type or fail), the resize utility,
and the per-address TV clients. -/
structure Env where
  get_image_url : String → Option String
  get_image : String → Option String → Option (Bytes × String)
  resize : Bytes → Bytes
  tv : String → TV

/-- The command-line configuration consumed by the core
(`--upload-all`, `--same-image`, and the three source flags); the
`--tvip` list (split on commas at art.py line 77) is passed around
separately as a `List String`. -/
structure Args where
  upload_all : Bool
  same_image : Bool
  bing : Bool
  google : Bool
  media : Bool

/-- Keys of the `source_lookup` dict (art.py lines 71-75); it always
contains all three source modules, independent of the enabled flags. -/
def source_lookup_names : List String :=
  ["sources.bing_wallpapers", "sources.google_art", "sources.media_folder"]

/-- The source list selected by flags (art.py lines 59-65), in flag order. -/
def configuredSources (args : Args) : List String :=
  (if args.bing then ["sources.bing_wallpapers"] else []) ++
  (if args.google then ["sources.google_art"] else []) ++
  (if args.media then ["sources.media_folder"] else [])

/-- Python truthiness of an optional string (`if remote_filename:` and
`if not image_url:`): `None` and the empty string are falsy. -/
def truthy : Option String → Bool
  | none => false
  | some s => s != ""

/-- `tv_ip if len(tvip) > 1 else None`: the device scope under which a
record is stored, removed, and looked up (art.py lines 84 and 177). -/
def scopeFor (tvip : List String) (tv_ip : String) : Option String :=
  if tvip.length > 1 then some tv_ip else none

/-- The matching condition of `remove_uploaded_entry` (art.py lines 88-92):
same file, same source, same device scope. -/
def keyMatch (e : Entry) (image_url : Option String) (source_name : Option String)
    (target_ip : Option String) : Bool :=
  e.file == image_url && e.source == source_name && e.tv_ip == target_ip

/-- The `(image_identifier, source_name, device_scope)` key of a record. -/
def entryKey (e : Entry) : Option String × Option String × Option String :=
  (e.file, e.source, e.tv_ip)

/-- `remove_uploaded_entry` (art.py lines 83-96): drop every record whose
key matches; persistence of the JSON file is a side effect outside the
store's value. -/
def remove_uploaded_entry (tvip : List String) (files : List Entry)
    (image_url source_name : Option String) (tv_ip : String) : List Entry :=
  files.filter (fun e => ! keyMatch e image_url source_name (scopeFor tvip tv_ip))

/-- Modelled from the spec: `Utils.get_remote_filename` lives in
`utils/utils.py`, which is not part of this repository snapshot.  Spec
section 4.1 specifies it as an exact-match lookup on the
`(image_identifier, source_name, device_scope)` triple returning the
matching record's remote artifact id, or nothing. -/
def get_remote_filename (tvip : List String) (files : List Entry)
    (image_url : Option String) (source_name : String) (tv_ip : String) :
    Option String :=
  (files.find? (fun e => keyMatch e image_url (some source_name) (scopeFor tvip tv_ip))).map
    Entry.remote_filename

/-- `ensure_image_data` (art.py lines 99-125): reuse the given bytes and
file type when both are present, otherwise look the source module up by
name and re-fetch and resize.  The second component counts `get_image`
calls (0 or 1). -/
def ensure_image_data (env : Env) (image_data : Option Bytes)
    (file_type : Option String) (source_name image_url : Option String) :
    Option (Bytes × String) × Nat :=
  match image_data, file_type with
  | some d, some t => (some (d, t), 0)
  | _, _ =>
    match source_name with
    | none => (none, 0)
    | some s =>
      if source_lookup_names.contains s then
        match env.get_image s image_url with
        | none => (none, 1)
        | some (orig, ft) => (some (env.resize orig, ft), 1)
      else (none, 0)

/-- Per-device outcome of `process_tv`, distinguishing its return paths. -/
inductive Outcome
  | notSupported
  | selected
  | prepFailed
  | uploaded
  | uploadFailed
deriving DecidableEq, Repr

/-- What one `process_tv` call did: final store contents, number of source
fetches, the argument list of `upload` calls (at most one), and the
outcome. -/
structure ProcResult where
  files : List Entry
  fetches : Nat
  uploads : List (Bytes × String)
  outcome : Outcome
deriving DecidableEq, Repr

/-- The upload/select/record tail of `process_tv` (art.py lines 165-184):
a raised upload (`none`), a `None` return (`some none`), and a failing
post-upload `select_image` all land in the catch-all handler with no record
written; only a non-`None` name followed by a successful select appends a
record keyed by `scopeFor`. -/
def uploadPhase (env : Env) (tvip : List String) (files2 : List Entry)
    (image_url source_name : Option String) (tv_ip : String)
    (b : Bytes) (t : String) (n : Nat) : ProcResult :=
  match (env.tv tv_ip).upload b t with
  | none => ⟨files2, n, [(b, t)], .uploadFailed⟩
  | some none => ⟨files2, n, [(b, t)], .uploadFailed⟩
  | some (some rf2) =>
    match (env.tv tv_ip).select rf2 with
    | .ok =>
      ⟨files2 ++ [⟨image_url, rf2, scopeFor tvip tv_ip, source_name⟩], n,
        [(b, t)], .uploaded⟩
    | _ => ⟨files2, n, [(b, t)], .uploadFailed⟩

/-- The part of `process_tv` after the reuse attempt (art.py lines 156-184):
`remote1` is the value of the Python `remote_filename` variable at that
point (`some` only on the forced `--upload-all` path, which removes the
stale entry before uploading, line 162). -/
def afterReuse (env : Env) (tvip : List String) (files1 : List Entry)
    (remote1 : Option String) (image_data : Option Bytes)
    (file_type : Option String) (image_url source_name : Option String)
    (tv_ip : String) : ProcResult :=
  match ensure_image_data env image_data file_type source_name image_url with
  | (none, n) => ⟨files1, n, [], .prepFailed⟩
  | (some (b, t), n) =>
    uploadPhase env tvip
      (if remote1.isSome then
        remove_uploaded_entry tvip files1 image_url source_name tv_ip
      else files1)
      image_url source_name tv_ip b t n

/-- `process_tv` (art.py lines 127-184).  The `if not needs_upload: return`
guard of line 153 is dead: every path reaching it has `needs_upload = True`,
so it is not modelled as a separate branch. -/
def process_tv (env : Env) (args : Args) (tvip : List String)
    (files : List Entry) (image_data : Option Bytes)
    (file_type : Option String) (image_url : Option String)
    (remote_filename : Option String) (source_name : Option String)
    (tv_ip : String) : ProcResult :=
  if (env.tv tv_ip).supported then
    match remote_filename, args.upload_all with
    | some rf, false =>
      match (env.tv tv_ip).select rf with
      | .ok => ⟨files, 0, [], .selected⟩
      | _ =>
        afterReuse env tvip
          (remove_uploaded_entry tvip files image_url source_name tv_ip)
          none image_data file_type image_url source_name tv_ip
    | some rf, true =>
      afterReuse env tvip files (some rf) image_data file_type image_url
        source_name tv_ip
    | none, _ =>
      afterReuse env tvip files none image_data file_type image_url
        source_name tv_ip
  else ⟨files, 0, [], .notSupported⟩

/-- `get_image_for_tv` (art.py lines 186-207) with the random source choice
made explicit as `srcName`.  Returns the five values handed to `process_tv`
plus the number of `get_image` calls. -/
structure FetchResult where
  image_data : Option Bytes
  file_type : Option String
  image_url : Option String
  remote_filename : Option String
  source_name : Option String
  fetches : Nat
deriving DecidableEq, Repr

def get_image_for_tv (env : Env) (tvip : List String) (files : List Entry)
    (srcName : String) (tv_ip : String) : FetchResult :=
  match get_remote_filename tvip files (env.get_image_url srcName) srcName tv_ip with
  | some r =>
    if r != "" then
      ⟨none, none, env.get_image_url srcName, some r, some srcName, 0⟩
    else
      match env.get_image srcName (env.get_image_url srcName) with
      | none => ⟨none, none, none, none, none, 1⟩
      | some (orig, ft) =>
        ⟨some (env.resize orig), some ft, env.get_image_url srcName, none,
          some srcName, 1⟩
  | none =>
    match env.get_image srcName (env.get_image_url srcName) with
    | none => ⟨none, none, none, none, none, 1⟩
    | some (orig, ft) =>
      ⟨some (env.resize orig), some ft, env.get_image_url srcName, none,
        some srcName, 1⟩

/-- Accumulated observable effects of a run: final store, number of source
fetches, upload calls as `(tv_ip, bytes, file_type)`, and whether the
process called `sys.exit` (with which code). -/
structure RunResult where
  files : List Entry
  fetches : Nat
  uploads : List (String × Bytes × String)
  exited : Option Nat
deriving DecidableEq, Repr

/-- One iteration of the distinct-image loop (art.py lines 255-257). -/
def stepDistinct (env : Env) (args : Args) (tvipAll : List String)
    (acc : RunResult) (p : String × String) : RunResult :=
  let g := get_image_for_tv env tvipAll acc.files p.2 p.1
  let r := process_tv env args tvipAll acc.files g.image_data g.file_type
    g.image_url g.remote_filename g.source_name p.1
  ⟨r.files, acc.fetches + g.fetches + r.fetches,
    acc.uploads ++ r.uploads.map (fun u => (p.1, u.1, u.2)), acc.exited⟩

/-- The distinct-image branch (art.py lines 254-257); the per-device random
source choices are passed in as `picks`, positionally zipped with `tvip`. -/
def runDistinct (env : Env) (args : Args) (tvip : List String)
    (picks : List String) (files0 : List Entry) : RunResult :=
  (tvip.zip picks).foldl (stepDistinct env args tvip) ⟨files0, 0, [], none⟩

/-- One iteration of the shared-image loop (art.py lines 251-253): the
`remote_filenames` dict was built against the pre-loop store `files0`, so a
falsy lookup there hands `None` to `process_tv` even if an earlier
iteration has since inserted a record. -/
def sameImageStep (env : Env) (args : Args) (tvip : List String)
    (files0 : List Entry) (image_url : Option String) (srcName : String)
    (image_data : Option Bytes) (file_type : Option String)
    (acc : RunResult) (tv_ip : String) : RunResult :=
  let r0 := get_remote_filename tvip files0 image_url srcName tv_ip
  let pr := process_tv env args tvip acc.files image_data file_type image_url
    (if truthy r0 then r0 else none) (some srcName) tv_ip
  ⟨pr.files, acc.fetches + pr.fetches,
    acc.uploads ++ pr.uploads.map (fun u => (tv_ip, u.1, u.2)), acc.exited⟩

/-- The shared-image branch (art.py lines 216-253): resolve one URL (a falsy
URL exits with status 1), partition devices by lookup against the current
store, fetch and resize at most once up front (a failed fetch exits with
status 1), then run `process_tv` for every device. -/
def runSameImage (env : Env) (args : Args) (tvip : List String)
    (srcName : String) (files0 : List Entry) : RunResult :=
  if truthy (env.get_image_url srcName) = false then ⟨files0, 0, [], some 1⟩
  else
    if tvip.filter (fun ip =>
        ! truthy (get_remote_filename tvip files0 (env.get_image_url srcName)
          srcName ip)) = [] then
      tvip.foldl
        (sameImageStep env args tvip files0 (env.get_image_url srcName)
          srcName none none)
        ⟨files0, 0, [], none⟩
    else
      match env.get_image srcName (env.get_image_url srcName) with
      | none => ⟨files0, 1, [], some 1⟩
      | some (orig, ft) =>
        tvip.foldl
          (sameImageStep env args tvip files0 (env.get_image_url srcName)
            srcName (some (env.resize orig)) (some ft))
          ⟨files0, 1, [], none⟩

/-- The module-level control flow (art.py lines 59-260): exit 1 when no
source flag is given (line 69) or no TV address is given (line 259,
`tvip = []`); otherwise run the shared-image branch when more than one TV
is targeted and `--same-image` is set, else the distinct-image branch. -/
def mainRun (env : Env) (args : Args) (tvip : List String)
    (sharedPick : String) (picks : List String) (files0 : List Entry) :
    RunResult :=
  if configuredSources args = [] then ⟨files0, 0, [], some 1⟩
  else if tvip = [] then ⟨files0, 0, [], some 1⟩
  else if 1 < tvip.length ∧ args.same_image = true then
    runSameImage env args tvip sharedPick files0
  else runDistinct env args tvip picks files0

/-- Candidate state directories of `ensure_upload_dir` (art.py lines 31-32). -/
def PREFERRED_DIR : String := "/share/SamsungFrameTVArtChanger"

def FALLBACK_DIR : String := "/data"

/-- Log severities emitted by `ensure_upload_dir`. -/
inductive LogLevel
  | info
  | warning
  | error
deriving DecidableEq, Repr

/-- `ensure_upload_dir` (art.py lines 35-43): try the preferred directory,
then the fallback, returning the first whose creation succeeds together
with the log lines emitted (one warning per failed candidate); when neither
can be created, return the current working directory "."  after logging an
error.  `canCreate` models `os.makedirs(path, exist_ok=True)` succeeding. -/
def ensure_upload_dir (canCreate : String → Bool) : String × List LogLevel :=
  if canCreate PREFERRED_DIR then (PREFERRED_DIR, [])
  else if canCreate FALLBACK_DIR then (FALLBACK_DIR, [.warning])
  else (".", [.warning, .warning, .error])

/-- The store invariant of the spec: pairwise distinct
`(image_identifier, source_name, device_scope)` keys, and no record with an
empty artifact id. -/
def goodStore (files : List Entry) : Prop :=
  (files.map entryKey).Nodup ∧ ∀ e ∈ files, e.remote_filename ≠ ""

instance (files : List Entry) : Decidable (goodStore files) := by
  unfold goodStore; infer_instance

/-! ### Basic lemmas about keys, truthiness and the store operations -/

theorem truthy_some_iff {s : String} : truthy (some s) = true ↔ s ≠ "" := by
  simp [truthy]

theorem keyMatch_eq_true_iff {e : Entry} {u s t : Option String} :
    keyMatch e u s t = true ↔ e.file = u ∧ e.source = s ∧ e.tv_ip = t := by
  simp [keyMatch, and_assoc]

theorem entryKey_eq_iff {e : Entry} {u s t : Option String} :
    entryKey e = (u, s, t) ↔ e.file = u ∧ e.source = s ∧ e.tv_ip = t := by
  simp [entryKey, Prod.ext_iff]

theorem mem_of_mem_remove {tvip : List String} {files : List Entry}
    {u s : Option String} {ip : String} {e : Entry}
    (h : e ∈ remove_uploaded_entry tvip files u s ip) : e ∈ files :=
  (List.mem_filter.mp h).1

theorem keyMatch_of_mem_remove {tvip : List String} {files : List Entry}
    {u s : Option String} {ip : String} {e : Entry}
    (h : e ∈ remove_uploaded_entry tvip files u s ip) :
    keyMatch e u s (scopeFor tvip ip) = false := by
  have h2 := (List.mem_filter.mp h).2
  simpa using h2

theorem keyMatch_of_not_mem_remove {tvip : List String} {files : List Entry}
    {u s : Option String} {ip : String} {e : Entry} (he : e ∈ files)
    (h : e ∉ remove_uploaded_entry tvip files u s ip) :
    keyMatch e u s (scopeFor tvip ip) = true := by
  by_contra hk
  exact h (List.mem_filter.mpr ⟨he, by simp [Bool.eq_false_iff.mpr hk]⟩)

theorem goodStore_remove {tvip : List String} {files : List Entry}
    {u s : Option String} {ip : String} (h : goodStore files) :
    goodStore (remove_uploaded_entry tvip files u s ip) := by
  refine ⟨h.1.sublist ((List.filter_sublist files).map entryKey), ?_⟩
  intro e he
  exact h.2 e (mem_of_mem_remove he)

theorem nodup_keys_append {files : List Entry} {u s t : Option String}
    {rf : String} (h : (files.map entryKey).Nodup)
    (hfresh : ∀ e ∈ files, keyMatch e u s t = false) :
    ((files ++ [(⟨u, rf, t, s⟩ : Entry)]).map entryKey).Nodup := by
  rw [List.map_append]
  refine h.append (List.nodup_singleton _) ?_
  intro k hk hk2
  obtain ⟨e, he, hke⟩ := List.mem_map.mp hk
  simp only [List.map_cons, List.map_nil, List.mem_singleton] at hk2
  subst hk2
  have hkm : keyMatch e u s t = true := keyMatch_eq_true_iff.mpr (entryKey_eq_iff.mp hke)
  rw [hfresh e he] at hkm
  exact Bool.noConfusion hkm

theorem find?_none_keyMatch {tvip : List String} {files : List Entry}
    {u : Option String} {sn ip : String}
    (h : truthy (get_remote_filename tvip files u sn ip) = false)
    (hg : ∀ e ∈ files, e.remote_filename ≠ "") :
    ∀ e ∈ files, keyMatch e u (some sn) (scopeFor tvip ip) = false := by
  intro e he
  by_contra hk
  rw [Bool.not_eq_false] at hk
  rcases hf : files.find? (fun e => keyMatch e u (some sn) (scopeFor tvip ip)) with _ | e0
  · rw [List.find?_eq_none] at hf
    exact (hf e he) hk
  · have := hg e0 (List.mem_of_find?_eq_some hf)
    rw [get_remote_filename, hf] at h
    simp only [Option.map_some', truthy, bne_iff_ne, ne_eq] at h
    exact this (by simpa using h)

/-! ### Shape and invariant lemmas for `process_tv` -/

theorem ensure_fst_none_of_none (env : Env) (d : Option Bytes)
    (t u : Option String) (h : d = none ∨ t = none) :
    (ensure_image_data env d t none u).1 = none := by
  rcases d with _ | d <;> rcases t with _ | t <;>
    simp [ensure_image_data] at h ⊢

theorem uploadPhase_shape (env : Env) (tvip : List String) (files2 : List Entry)
    (u s : Option String) (ip : String) (b : Bytes) (t : String) (n : Nat) :
    (uploadPhase env tvip files2 u s ip b t n).files = files2 ∨
    ∃ rf2, (env.tv ip).upload b t = some (some rf2) ∧
      (uploadPhase env tvip files2 u s ip b t n).files =
        files2 ++ [⟨u, rf2, scopeFor tvip ip, s⟩] := by
  rcases hup : (env.tv ip).upload b t with _ | (_ | rf2)
  · left; simp [uploadPhase, hup]
  · left; simp [uploadPhase, hup]
  · rcases hsel : (env.tv ip).select rf2 with _ | _ | _
    · right
      refine ⟨rf2, rfl, ?_⟩
      simp [uploadPhase, hup, hsel]
    · left; simp [uploadPhase, hup, hsel]
    · left; simp [uploadPhase, hup, hsel]

theorem uploadPhase_good (env : Env) (tvip : List String) (files2 : List Entry)
    (u s : Option String) (ip : String) (b : Bytes) (t : String) (n : Nat)
    (hg : goodStore files2)
    (hup : ∀ b' t' r', (env.tv ip).upload b' t' = some (some r') → r' ≠ "")
    (hfresh : ∀ e ∈ files2, keyMatch e u s (scopeFor tvip ip) = false) :
    goodStore (uploadPhase env tvip files2 u s ip b t n).files := by
  rcases uploadPhase_shape env tvip files2 u s ip b t n with h | ⟨rf2, hu, h⟩
  · rw [h]; exact hg
  · rw [h]
    refine ⟨nodup_keys_append hg.1 hfresh, ?_⟩
    intro e he
    rcases List.mem_append.mp he with he | he
    · exact hg.2 e he
    · simp only [List.mem_singleton] at he
      subst he
      exact hup b t rf2 hu

theorem afterReuse_good (env : Env) (tvip : List String) (files1 : List Entry)
    (r1 : Option String) (d : Option Bytes) (t : Option String)
    (u s : Option String) (ip : String)
    (hg : goodStore files1)
    (hup : ∀ b' t' r', (env.tv ip).upload b' t' = some (some r') → r' ≠ "")
    (hn : r1 = none → (s = none ∧ (d = none ∨ t = none)) ∨
      ∀ e ∈ files1, keyMatch e u s (scopeFor tvip ip) = false) :
    goodStore (afterReuse env tvip files1 r1 d t u s ip).files := by
  rcases hens : ensure_image_data env d t s u with ⟨ed, n⟩
  rcases ed with _ | ⟨b, ty⟩
  · simpa [afterReuse, hens] using hg
  · rcases r1 with _ | rf
    · rcases hn rfl with ⟨hs, hdt⟩ | hfresh
      · subst hs
        have h0 := ensure_fst_none_of_none env d t u hdt
        rw [hens] at h0
        exact absurd h0 (by simp)
      · simp only [afterReuse, hens, Option.isSome_none, Bool.false_eq_true,
          if_false]
        exact uploadPhase_good env tvip files1 u s ip b ty n hg hup hfresh
    · simp only [afterReuse, hens, Option.isSome_some, if_true]
      exact uploadPhase_good env tvip _ u s ip b ty n (goodStore_remove hg) hup
        (fun e he => keyMatch_of_mem_remove he)

theorem process_tv_good (env : Env) (args : Args) (tvip : List String)
    (files : List Entry) (d : Option Bytes) (t u r s : Option String)
    (ip : String)
    (hg : goodStore files)
    (hup : ∀ b' t' r', (env.tv ip).upload b' t' = some (some r') → r' ≠ "")
    (hn : r = none → (s = none ∧ (d = none ∨ t = none)) ∨
      ∀ e ∈ files, keyMatch e u s (scopeFor tvip ip) = false) :
    goodStore (process_tv env args tvip files d t u r s ip).files := by
  by_cases hsup : (env.tv ip).supported = true
  · rcases r with _ | rf
    · simp only [process_tv, hsup, if_true]
      exact afterReuse_good env tvip files none d t u s ip hg hup hn
    · rcases hua : args.upload_all with _ | _
      · rcases hsel : (env.tv ip).select rf with _ | _ | _
        · simpa [process_tv, hsup, hua, hsel] using hg
        · simp only [process_tv, hsup, if_true, hua, hsel]
          exact afterReuse_good env tvip _ none d t u s ip
            (goodStore_remove hg) hup
            (fun _ => Or.inr (fun e he => keyMatch_of_mem_remove he))
        · simp only [process_tv, hsup, if_true, hua, hsel]
          exact afterReuse_good env tvip _ none d t u s ip
            (goodStore_remove hg) hup
            (fun _ => Or.inr (fun e he => keyMatch_of_mem_remove he))
      · simp only [process_tv, hsup, if_true, hua]
        exact afterReuse_good env tvip files (some rf) d t u s ip hg hup
          (fun h => Option.noConfusion h)
  · simp only [Bool.not_eq_true] at hsup
    simpa [process_tv, hsup] using hg

theorem afterReuse_mem (env : Env) (tvip : List String) (files1 : List Entry)
    (r1 : Option String) (d : Option Bytes) (t : Option String)
    (u s : Option String) (ip : String) :
    ∀ e ∈ (afterReuse env tvip files1 r1 d t u s ip).files,
      e ∈ files1 ∨ (e.file = u ∧ e.source = s ∧ e.tv_ip = scopeFor tvip ip) := by
  intro e he
  rcases hens : ensure_image_data env d t s u with ⟨ed, n⟩
  rcases ed with _ | ⟨b, ty⟩
  · rw [afterReuse] at he
    rw [hens] at he
    exact Or.inl he
  · rw [afterReuse] at he
    rw [hens] at he
    rcases uploadPhase_shape env tvip
      (if r1.isSome then remove_uploaded_entry tvip files1 u s ip else files1)
      u s ip b ty n with hsh | ⟨rf2, _, hsh⟩ <;> rw [hsh] at he
    · rcases r1 with _ | rf <;> simp only [Option.isSome_none, Option.isSome_some,
        Bool.false_eq_true, if_false, if_true] at he
      · exact Or.inl he
      · exact Or.inl (mem_of_mem_remove he)
    · rcases List.mem_append.mp he with he | he
      · rcases r1 with _ | rf <;> simp only [Option.isSome_none, Option.isSome_some,
          Bool.false_eq_true, if_false, if_true] at he
        · exact Or.inl he
        · exact Or.inl (mem_of_mem_remove he)
      · simp only [List.mem_singleton] at he
        subst he
        exact Or.inr ⟨rfl, rfl, rfl⟩

theorem process_tv_mem (env : Env) (args : Args) (tvip : List String)
    (files : List Entry) (d : Option Bytes) (t u r s : Option String)
    (ip : String) :
    ∀ e ∈ (process_tv env args tvip files d t u r s ip).files,
      e ∈ files ∨ (e.file = u ∧ e.source = s ∧ e.tv_ip = scopeFor tvip ip) := by
  intro e he
  by_cases hsup : (env.tv ip).supported = true
  · rcases r with _ | rf
    · simp only [process_tv, hsup, if_true] at he
      exact afterReuse_mem env tvip files none d t u s ip e he
    · rcases hua : args.upload_all with _ | _
      · rcases hsel : (env.tv ip).select rf with _ | _ | _
        · simp only [process_tv, hsup, if_true, hua, hsel] at he
          exact Or.inl he
        · simp only [process_tv, hsup, if_true, hua, hsel] at he
          rcases afterReuse_mem env tvip _ none d t u s ip e he with h | h
          · exact Or.inl (mem_of_mem_remove h)
          · exact Or.inr h
        · simp only [process_tv, hsup, if_true, hua, hsel] at he
          rcases afterReuse_mem env tvip _ none d t u s ip e he with h | h
          · exact Or.inl (mem_of_mem_remove h)
          · exact Or.inr h
      · simp only [process_tv, hsup, if_true, hua] at he
        exact afterReuse_mem env tvip files (some rf) d t u s ip e he
  · simp only [Bool.not_eq_true] at hsup
    simp only [process_tv, hsup, Bool.false_eq_true, if_false] at he
    exact Or.inl he

/-! ### Run-level lemmas -/

theorem get_image_for_tv_cases (env : Env) (tvip : List String)
    (files : List Entry) (srcName ip : String) :
    (∃ r, get_remote_filename tvip files (env.get_image_url srcName) srcName ip
        = some r ∧ r ≠ "" ∧
      get_image_for_tv env tvip files srcName ip =
        ⟨none, none, env.get_image_url srcName, some r, some srcName, 0⟩) ∨
    (truthy (get_remote_filename tvip files (env.get_image_url srcName) srcName ip)
        = false ∧
      (get_image_for_tv env tvip files srcName ip = ⟨none, none, none, none, none, 1⟩ ∨
       ∃ orig ft, env.get_image srcName (env.get_image_url srcName) = some (orig, ft) ∧
         get_image_for_tv env tvip files srcName ip =
           ⟨some (env.resize orig), some ft, env.get_image_url srcName, none,
             some srcName, 1⟩)) := by
  rcases hf : get_remote_filename tvip files (env.get_image_url srcName) srcName ip
    with _ | r
  · rcases hg : env.get_image srcName (env.get_image_url srcName) with _ | ⟨orig, ft⟩
    · refine Or.inr ⟨by simp [hf, truthy], Or.inl ?_⟩
      simp [get_image_for_tv, hf, hg]
    · refine Or.inr ⟨by simp [hf, truthy], Or.inr ⟨orig, ft, rfl, ?_⟩⟩
      simp [get_image_for_tv, hf, hg]
  · by_cases hr : r = ""
    · subst hr
      rcases hg : env.get_image srcName (env.get_image_url srcName) with _ | ⟨orig, ft⟩
      · refine Or.inr ⟨by simp [hf, truthy], Or.inl ?_⟩
        simp [get_image_for_tv, hf, hg]
      · refine Or.inr ⟨by simp [hf, truthy], Or.inr ⟨orig, ft, rfl, ?_⟩⟩
        simp [get_image_for_tv, hf, hg]
    · refine Or.inl ⟨r, rfl, hr, ?_⟩
      simp [get_image_for_tv, hf, hr]

theorem stepDistinct_good (env : Env) (args : Args) (tvipAll : List String)
    (acc : RunResult) (p : String × String)
    (hup : ∀ b t r, (env.tv p.1).upload b t = some (some r) → r ≠ "")
    (hacc : goodStore acc.files) :
    goodStore ((stepDistinct env args tvipAll acc p).files) := by
  show goodStore ((process_tv env args tvipAll acc.files
    (get_image_for_tv env tvipAll acc.files p.2 p.1).image_data
    (get_image_for_tv env tvipAll acc.files p.2 p.1).file_type
    (get_image_for_tv env tvipAll acc.files p.2 p.1).image_url
    (get_image_for_tv env tvipAll acc.files p.2 p.1).remote_filename
    (get_image_for_tv env tvipAll acc.files p.2 p.1).source_name p.1).files)
  rcases get_image_for_tv_cases env tvipAll acc.files p.2 p.1 with
    ⟨r, _, _, hgi⟩ | ⟨htr, hgi | ⟨orig, ft, _, hgi⟩⟩ <;> rw [hgi]
  · exact process_tv_good env args tvipAll acc.files none none _ (some r) _ p.1
      hacc hup (fun h => Option.noConfusion h)
  · exact process_tv_good env args tvipAll acc.files none none none none none p.1
      hacc hup (fun _ => Or.inl ⟨rfl, Or.inl rfl⟩)
  · exact process_tv_good env args tvipAll acc.files _ _ _ none _ p.1
      hacc hup
      (fun _ => Or.inr (find?_none_keyMatch htr hacc.2))

theorem foldl_stepDistinct_good (env : Env) (args : Args) (tvipAll : List String)
    (hup : ∀ ip b t r, (env.tv ip).upload b t = some (some r) → r ≠ "") :
    ∀ (l : List (String × String)) (acc : RunResult), goodStore acc.files →
      goodStore ((l.foldl (stepDistinct env args tvipAll) acc).files) := by
  intro l
  induction l with
  | nil => exact fun acc h => h
  | cons p l ih =>
    intro acc hacc
    rw [List.foldl_cons]
    exact ih _ (stepDistinct_good env args tvipAll acc p (hup p.1) hacc)

theorem runDistinct_good (env : Env) (args : Args) (tvip : List String)
    (picks : List String) (files0 : List Entry)
    (hup : ∀ ip b t r, (env.tv ip).upload b t = some (some r) → r ≠ "")
    (hg : goodStore files0) :
    goodStore ((runDistinct env args tvip picks files0).files) :=
  foldl_stepDistinct_good env args tvip hup (tvip.zip picks) _ hg

theorem foldl_stepDistinct_exited (env : Env) (args : Args)
    (tvipAll : List String) :
    ∀ (l : List (String × String)) (acc : RunResult),
      (l.foldl (stepDistinct env args tvipAll) acc).exited = acc.exited := by
  intro l
  induction l with
  | nil => exact fun _ => rfl
  | cons p l ih =>
    intro acc
    rw [List.foldl_cons, ih]
    rfl

theorem foldl_sameImageStep_exited (env : Env) (args : Args)
    (tvip : List String) (files0 : List Entry) (url : Option String)
    (srcName : String) (d : Option Bytes) (t : Option String) :
    ∀ (l : List String) (acc : RunResult),
      (l.foldl (sameImageStep env args tvip files0 url srcName d t) acc).exited
        = acc.exited := by
  intro l
  induction l with
  | nil => exact fun _ => rfl
  | cons ip l ih =>
    intro acc
    rw [List.foldl_cons, ih]
    rfl

theorem sameImage_fold_good (env : Env) (args : Args) (tvip : List String)
    (files0 : List Entry) (url : Option String) (srcName : String)
    (d : Option Bytes) (t : Option String)
    (hup : ∀ ip b ty r, (env.tv ip).upload b ty = some (some r) → r ≠ "")
    (hg0 : goodStore files0) (hlen : 1 < tvip.length) :
    ∀ (l : List String) (acc : RunResult), l.Nodup →
      goodStore acc.files →
      (∀ e ∈ acc.files, e ∈ files0 ∨ ∀ ip ∈ l, e.tv_ip ≠ some ip) →
      goodStore ((l.foldl
        (sameImageStep env args tvip files0 url srcName d t) acc).files) := by
  intro l
  induction l with
  | nil => exact fun acc _ h _ => h
  | cons ip l ih =>
    intro acc hnd hacc hinv
    rw [List.foldl_cons]
    have hscope : scopeFor tvip ip = some ip := by
      simp [scopeFor, hlen]
    have hstep : goodStore ((sameImageStep env args tvip files0 url srcName d t
        acc ip).files) := by
      show goodStore ((process_tv env args tvip acc.files d t url
        (if truthy (get_remote_filename tvip files0 url srcName ip) then
          get_remote_filename tvip files0 url srcName ip else none)
        (some srcName) ip).files)
      rcases htr : truthy (get_remote_filename tvip files0 url srcName ip)
        with _ | _
      · simp only [if_false, Bool.false_eq_true]
        refine process_tv_good env args tvip acc.files d t url none
          (some srcName) ip hacc (hup ip) (fun _ => Or.inr ?_)
        intro e he
        rcases hinv e he with he0 | hip
        · exact find?_none_keyMatch htr hg0.2 e he0
        · rw [Bool.eq_false_iff]
          intro hk
          have h3 := (keyMatch_eq_true_iff.mp hk).2.2
          rw [hscope] at h3
          exact hip ip (List.mem_cons_self ip l) h3
      · rcases hr0 : get_remote_filename tvip files0 url srcName ip with _ | r
        · rw [hr0] at htr
          exact absurd htr (by simp [truthy])
        · rw [if_pos rfl]
          exact process_tv_good env args tvip acc.files d t url (some r)
            (some srcName) ip hacc (hup ip) (fun h => Option.noConfusion h)
    refine ih _ (List.Nodup.of_cons hnd) hstep ?_
    intro e he
    have hmem := process_tv_mem env args tvip acc.files d t url
      (if truthy (get_remote_filename tvip files0 url srcName ip) then
        get_remote_filename tvip files0 url srcName ip else none)
      (some srcName) ip e he
    rcases hmem with hold | ⟨_, _, hip⟩
    · rcases hinv e hold with he0 | hl
      · exact Or.inl he0
      · exact Or.inr (fun ip2 hip2 => hl ip2 (List.mem_cons_of_mem ip hip2))
    · refine Or.inr ?_
      intro ip2 hip2
      rw [hip, hscope]
      intro hcontra
      have : ip = ip2 := by simpa using hcontra
      subst this
      exact (List.nodup_cons.mp hnd).1 hip2

theorem runSameImage_good (env : Env) (args : Args) (tvip : List String)
    (srcName : String) (files0 : List Entry)
    (hup : ∀ ip b ty r, (env.tv ip).upload b ty = some (some r) → r ≠ "")
    (hg0 : goodStore files0) (hnd : tvip.Nodup) (hlen : 1 < tvip.length) :
    goodStore ((runSameImage env args tvip srcName files0).files) := by
  unfold runSameImage
  split
  · exact hg0
  · split
    · exact sameImage_fold_good env args tvip files0 _ srcName none none hup
        hg0 hlen tvip _ hnd hg0 (fun e he => Or.inl he)
    · split
      · exact hg0
      · exact sameImage_fold_good env args tvip files0 _ srcName _ _ hup
          hg0 hlen tvip _ hnd hg0 (fun e he => Or.inl he)

theorem afterReuse_keep (env : Env) (tvip : List String) (files1 : List Entry)
    (r1 : Option String) (d : Option Bytes) (t : Option String)
    (u s : Option String) (ip : String) (e : Entry)
    (he : e ∈ files1) (hk : keyMatch e u s (scopeFor tvip ip) = false) :
    e ∈ (afterReuse env tvip files1 r1 d t u s ip).files := by
  rcases hens : ensure_image_data env d t s u with ⟨ed, n⟩
  rcases ed with _ | ⟨b, ty⟩
  · rw [afterReuse, hens]
    exact he
  · rw [afterReuse, hens]
    have h2 : e ∈ (if r1.isSome then
        remove_uploaded_entry tvip files1 u s ip else files1) := by
      split
      · exact List.mem_filter.mpr ⟨he, by simp [hk]⟩
      · exact he
    rcases uploadPhase_shape env tvip _ u s ip b ty n with hsh | ⟨rf2, _, hsh⟩ <;>
      rw [hsh]
    · exact h2
    · exact List.mem_append.mpr (Or.inl h2)

theorem process_tv_keep (env : Env) (args : Args) (tvip : List String)
    (files : List Entry) (d : Option Bytes) (t u r s : Option String)
    (ip : String) (e : Entry)
    (he : e ∈ files) (hk : keyMatch e u s (scopeFor tvip ip) = false) :
    e ∈ (process_tv env args tvip files d t u r s ip).files := by
  by_cases hsup : (env.tv ip).supported = true
  · rcases r with _ | rf
    · simp only [process_tv, hsup, if_true]
      exact afterReuse_keep env tvip files none d t u s ip e he hk
    · rcases hua : args.upload_all with _ | _
      · rcases hsel : (env.tv ip).select rf with _ | _ | _
        · simp only [process_tv, hsup, if_true, hua, hsel]
          exact he
        · simp only [process_tv, hsup, if_true, hua, hsel]
          exact afterReuse_keep env tvip _ none d t u s ip e
            (List.mem_filter.mpr ⟨he, by simp [hk]⟩) hk
        · simp only [process_tv, hsup, if_true, hua, hsel]
          exact afterReuse_keep env tvip _ none d t u s ip e
            (List.mem_filter.mpr ⟨he, by simp [hk]⟩) hk
      · simp only [process_tv, hsup, if_true, hua]
        exact afterReuse_keep env tvip files (some rf) d t u s ip e he hk
  · simp only [Bool.not_eq_true] at hsup
    simp only [process_tv, hsup, Bool.false_eq_true, if_false]
    exact he

theorem process_tv_removed (env : Env) (args : Args) (tvip : List String)
    (files : List Entry) (d : Option Bytes) (t u r s : Option String)
    (ip : String) (e : Entry) (he : e ∈ files)
    (hout : e ∉ (process_tv env args tvip files d t u r s ip).files) :
    keyMatch e u s (scopeFor tvip ip) = true := by
  by_contra hk
  rw [Bool.not_eq_true] at hk
  exact hout (process_tv_keep env args tvip files d t u r s ip e he hk)

theorem uploadPhase_counts (env : Env) (tvip : List String)
    (files2 : List Entry) (u s : Option String) (ip : String)
    (b : Bytes) (t : String) (n : Nat) :
    (uploadPhase env tvip files2 u s ip b t n).fetches = n ∧
    (uploadPhase env tvip files2 u s ip b t n).uploads = [(b, t)] := by
  rcases hup : (env.tv ip).upload b t with _ | (_ | rf2)
  · simp [uploadPhase, hup]
  · simp [uploadPhase, hup]
  · rcases hsel : (env.tv ip).select rf2 with _ | _ | _ <;>
      simp [uploadPhase, hup, hsel]

theorem afterReuse_given_data (env : Env) (tvip : List String)
    (files1 : List Entry) (r1 : Option String) (u s : Option String)
    (ip : String) (b : Bytes) (ty : String) :
    (afterReuse env tvip files1 r1 (some b) (some ty) u s ip).fetches = 0 ∧
    (afterReuse env tvip files1 r1 (some b) (some ty) u s ip).uploads =
      [(b, ty)] := by
  have hens : ensure_image_data env (some b) (some ty) s u =
      (some (b, ty), 0) := rfl
  constructor
  · simp only [afterReuse, hens]
    exact (uploadPhase_counts env tvip _ u s ip b ty 0).1
  · simp only [afterReuse, hens]
    exact (uploadPhase_counts env tvip _ u s ip b ty 0).2

theorem process_tv_given_data (env : Env) (args : Args) (tvip : List String)
    (files : List Entry) (u r s : Option String) (ip : String)
    (b : Bytes) (ty : String) :
    (process_tv env args tvip files (some b) (some ty) u r s ip).fetches = 0 ∧
    ((process_tv env args tvip files (some b) (some ty) u r s ip).uploads = [] ∨
     (process_tv env args tvip files (some b) (some ty) u r s ip).uploads =
       [(b, ty)]) := by
  by_cases hsup : (env.tv ip).supported = true
  · rcases r with _ | rf
    · simp only [process_tv, hsup, if_true]
      exact ⟨(afterReuse_given_data env tvip files none u s ip b ty).1,
        Or.inr (afterReuse_given_data env tvip files none u s ip b ty).2⟩
    · rcases hua : args.upload_all with _ | _
      · rcases hsel : (env.tv ip).select rf with _ | _ | _
        · simp [process_tv, hsup, hua, hsel]
        · simp only [process_tv, hsup, if_true, hua, hsel]
          exact ⟨(afterReuse_given_data env tvip _ none u s ip b ty).1,
            Or.inr (afterReuse_given_data env tvip _ none u s ip b ty).2⟩
        · simp only [process_tv, hsup, if_true, hua, hsel]
          exact ⟨(afterReuse_given_data env tvip _ none u s ip b ty).1,
            Or.inr (afterReuse_given_data env tvip _ none u s ip b ty).2⟩
      · simp only [process_tv, hsup, if_true, hua]
        exact ⟨(afterReuse_given_data env tvip files (some rf) u s ip b ty).1,
          Or.inr (afterReuse_given_data env tvip files (some rf) u s ip b ty).2⟩
  · simp only [Bool.not_eq_true] at hsup
    simp [process_tv, hsup]

theorem sameImageStep_noop (env : Env) (args : Args) (tvip : List String)
    (files0 : List Entry) (url : Option String) (srcName : String)
    (acc : RunResult) (ip : String)
    (hua : args.upload_all = false)
    (hsel : ∀ r, get_remote_filename tvip files0 url srcName ip = some r →
      r ≠ "" → (env.tv ip).supported = true → (env.tv ip).select r = .ok)
    (htr : truthy (get_remote_filename tvip files0 url srcName ip) = true) :
    sameImageStep env args tvip files0 url srcName none none acc ip = acc := by
  rcases hr : get_remote_filename tvip files0 url srcName ip with _ | r
  · rw [hr] at htr
    exact absurd htr (by simp [truthy])
  · rw [hr] at htr
    have hrne : r ≠ "" := by simpa [truthy] using htr
    by_cases hsup : (env.tv ip).supported = true
    · have hok := hsel r hr hrne hsup
      have hp : process_tv env args tvip acc.files none none url (some r)
          (some srcName) ip = ⟨acc.files, 0, [], .selected⟩ := by
        simp [process_tv, hsup, hua, hok]
      simp [sameImageStep, hr, htr, hp]
    · rw [Bool.not_eq_true] at hsup
      have hp : process_tv env args tvip acc.files none none url (some r)
          (some srcName) ip = ⟨acc.files, 0, [], .notSupported⟩ := by
        simp [process_tv, hsup]
      simp [sameImageStep, hr, htr, hp]

theorem sameImage_fold_noop (env : Env) (args : Args) (tvip : List String)
    (files0 : List Entry) (url : Option String) (srcName : String)
    (hua : args.upload_all = false) :
    ∀ (l : List String) (acc : RunResult),
      (∀ ip ∈ l, ∀ r, get_remote_filename tvip files0 url srcName ip = some r →
        r ≠ "" → (env.tv ip).supported = true → (env.tv ip).select r = .ok) →
      (∀ ip ∈ l, truthy (get_remote_filename tvip files0 url srcName ip) = true) →
      l.foldl (sameImageStep env args tvip files0 url srcName none none) acc
        = acc := by
  intro l
  induction l with
  | nil => exact fun _ _ _ => rfl
  | cons ip l ih =>
    intro acc hsel htr
    rw [List.foldl_cons,
      sameImageStep_noop env args tvip files0 url srcName acc ip hua
        (hsel ip (List.mem_cons_self ip l))
        (htr ip (List.mem_cons_self ip l))]
    exact ih acc (fun q hq => hsel q (List.mem_cons_of_mem ip hq))
      (fun q hq => htr q (List.mem_cons_of_mem ip hq))

theorem sameImage_fold_prefetched (env : Env) (args : Args)
    (tvip : List String) (files0 : List Entry) (url : Option String)
    (srcName : String) (b : Bytes) (ty : String) :
    ∀ (l : List String) (acc : RunResult),
      (l.foldl (sameImageStep env args tvip files0 url srcName (some b)
        (some ty)) acc).fetches = acc.fetches ∧
      ∀ u2 ∈ (l.foldl (sameImageStep env args tvip files0 url srcName (some b)
        (some ty)) acc).uploads,
        u2 ∈ acc.uploads ∨ (u2.2.1 = b ∧ u2.2.2 = ty) := by
  intro l
  induction l with
  | nil => exact fun acc => ⟨rfl, fun _ h => Or.inl h⟩
  | cons ip l ih =>
    intro acc
    rw [List.foldl_cons]
    have hcnt := process_tv_given_data env args tvip acc.files url
      (if truthy (get_remote_filename tvip files0 url srcName ip) then
        get_remote_filename tvip files0 url srcName ip else none)
      (some srcName) ip b ty
    have hstep : sameImageStep env args tvip files0 url srcName (some b)
        (some ty) acc ip =
        ⟨(process_tv env args tvip acc.files (some b) (some ty) url
            (if truthy (get_remote_filename tvip files0 url srcName ip) then
              get_remote_filename tvip files0 url srcName ip else none)
            (some srcName) ip).files,
          acc.fetches +
            (process_tv env args tvip acc.files (some b) (some ty) url
              (if truthy (get_remote_filename tvip files0 url srcName ip) then
                get_remote_filename tvip files0 url srcName ip else none)
              (some srcName) ip).fetches,
          acc.uploads ++
            (process_tv env args tvip acc.files (some b) (some ty) url
              (if truthy (get_remote_filename tvip files0 url srcName ip) then
                get_remote_filename tvip files0 url srcName ip else none)
              (some srcName) ip).uploads.map (fun u => (ip, u.1, u.2)),
          acc.exited⟩ := rfl
    constructor
    · rw [(ih _).1, hstep]
      simp [hcnt.1]
    · intro u2 hu2
      rcases (ih _).2 u2 hu2 with h | h
      · rw [hstep] at h
        simp only [List.mem_append] at h
        rcases h with h | h
        · exact Or.inl h
        · rcases List.mem_map.mp h with ⟨u3, hu3, hu3e⟩
          rcases hcnt.2 with h0 | h0
          · rw [h0] at hu3
            exact absurd hu3 (List.not_mem_nil u3)
          · rw [h0] at hu3
            simp only [List.mem_singleton] at hu3
            subst hu3
            subst hu3e
            exact Or.inr ⟨rfl, rfl⟩
      · exact Or.inr h

theorem runDistinct_exited (env : Env) (args : Args) (tvip : List String)
    (picks : List String) (files0 : List Entry) :
    (runDistinct env args tvip picks files0).exited = none := by
  unfold runDistinct
  rw [foldl_stepDistinct_exited]

theorem runSameImage_exited (env : Env) (args : Args) (tvip : List String)
    (srcName : String) (files0 : List Entry) :
    (runSameImage env args tvip srcName files0).exited = some 1 ↔
      (truthy (env.get_image_url srcName) = false ∨
        ((∃ ip ∈ tvip, truthy (get_remote_filename tvip files0
            (env.get_image_url srcName) srcName ip) = false) ∧
         env.get_image srcName (env.get_image_url srcName) = none)) := by
  unfold runSameImage
  split
  next hurl =>
    constructor
    · intro _
      exact Or.inl hurl
    · intro _
      rfl
  next hurl =>
    rw [Bool.not_eq_false] at hurl
    split
    next hfil =>
      rw [foldl_sameImageStep_exited]
      constructor
      · intro h0
        exact Option.noConfusion h0
      · rintro (h0 | ⟨⟨ip, hip, hf⟩, _⟩)
        · rw [h0] at hurl
          exact Bool.noConfusion hurl
        · have h1 := List.filter_eq_nil_iff.mp hfil ip hip
          rw [hf] at h1
          exact (h1 rfl).elim
    next hfil =>
      split
      next horig =>
        constructor
        · intro _
          refine Or.inr ⟨?_, horig⟩
          obtain ⟨x, hx⟩ := List.exists_mem_of_ne_nil _ hfil
          have hx2 := List.mem_filter.mp hx
          refine ⟨x, hx2.1, ?_⟩
          have := hx2.2
          simpa using this
        · intro _
          rfl
      next orig ft horig =>
        rw [foldl_sameImageStep_exited]
        constructor
        · intro h0
          exact Option.noConfusion h0
        · rintro (h0 | ⟨_, hnone⟩)
          · rw [h0] at hurl
            exact Bool.noConfusion hurl
          · rw [horig] at hnone
            exact Option.noConfusion hnone

/-! ### Claim theorems -/

/-- Claim C3: a stored record whose select fails — with the not-found
`ResponseError` or any other device-level error — is removed from the store
and the engine falls through to the upload path; exactly one re-upload
occurs, and on its success a new record for the same
`(image_identifier, source_name, device_scope)` key replaces the old one. -/
theorem C3_stale_recovery (env : Env) (args : Args) (tvip : List String)
    (files : List Entry) (d : Option Bytes) (t u s : Option String)
    (ip rf : String) (b : Bytes) (ty : String) (n : Nat) (rf2 : String)
    (hsup : (env.tv ip).supported = true)
    (hua : args.upload_all = false)
    (hsel : (env.tv ip).select rf ≠ .ok)
    (hens : ensure_image_data env d t s u = (some (b, ty), n))
    (hup : (env.tv ip).upload b ty = some (some rf2))
    (hsel2 : (env.tv ip).select rf2 = .ok) :
    process_tv env args tvip files d t u (some rf) s ip =
      ⟨remove_uploaded_entry tvip files u s ip ++
        [⟨u, rf2, scopeFor tvip ip, s⟩], n, [(b, ty)], .uploaded⟩ := by
  rcases hsel0 : (env.tv ip).select rf with _ | _ | _
  · exact absurd hsel0 hsel
  · simp [process_tv, hsup, hua, hsel0, afterReuse, hens, uploadPhase, hup,
      hsel2]
  · simp [process_tv, hsup, hua, hsel0, afterReuse, hens, uploadPhase, hup,
      hsel2]

/-- Closed witness for C3 at a concrete device whose select of the old
artifact raises and whose upload yields a fresh artifact id. -/
theorem C3_stale_recovery_witness :
    process_tv
      ⟨fun _ => some "u", fun _ _ => some (7, "jpg"), id,
        fun _ => ⟨true,
          fun f => if f = "old" then .responseError else .ok,
          fun _ _ => some (some "new")⟩⟩
      ⟨false, false, false, false, true⟩ ["a"]
      [⟨some "u", "old", none, some "s"⟩] (some 7) (some "jpg") (some "u")
      (some "old") (some "s") "a" =
      ⟨[⟨some "u", "new", none, some "s"⟩], 0, [(7, "jpg")], .uploaded⟩ := by
  have h := C3_stale_recovery
    ⟨fun _ => some "u", fun _ _ => some (7, "jpg"), id,
      fun _ => ⟨true,
        fun f => if f = "old" then .responseError else .ok,
        fun _ _ => some (some "new")⟩⟩
    ⟨false, false, false, false, true⟩ ["a"]
    [⟨some "u", "old", none, some "s"⟩] (some 7) (some "jpg") (some "u")
    (some "s") "a" "old" 7 "jpg" 0 "new" rfl rfl (by decide) rfl rfl
    (by decide)
  rw [h]
  decide

/-- Claim C6 counterexample: an upload response carrying the empty-string
artifact id is not treated as `UploadFailed`; the guard only checks for
Python `None`, so a record with an empty `remote_filename` is stored and
the outcome is a successful upload. -/
theorem C6_upload_ack_cex :
    (process_tv
      ⟨fun _ => some "u", fun _ _ => some (7, "jpg"), id,
        fun _ => ⟨true, fun _ => .ok, fun _ _ => some (some "")⟩⟩
      ⟨false, false, false, false, true⟩ ["a"] [] (some 7) (some "jpg")
      (some "u") none (some "s") "a").files =
      [⟨some "u", "", none, some "s"⟩] ∧
    (process_tv
      ⟨fun _ => some "u", fun _ _ => some (7, "jpg"), id,
        fun _ => ⟨true, fun _ => .ok, fun _ _ => some (some "")⟩⟩
      ⟨false, false, false, false, true⟩ ["a"] [] (some 7) (some "jpg")
      (some "u") none (some "s") "a").outcome = .uploaded := by
  decide

/-- Claim C6 (amended): an upload whose response carries a missing (`None`)
artifact id — and likewise a raised upload call — yields `UploadFailed`:
no record is written and the store is unchanged on the fresh-upload path.
A record is created only after the upload returns a non-`None` id (which
may, however, be the empty string) and the activation select succeeds. -/
theorem C6_missing_id_amended (env : Env) (args : Args) (tvip : List String)
    (files : List Entry) (d : Option Bytes) (t u s : Option String)
    (ip : String) (b : Bytes) (ty : String) (n : Nat)
    (hsup : (env.tv ip).supported = true)
    (hens : ensure_image_data env d t s u = (some (b, ty), n))
    (hup : (env.tv ip).upload b ty = none ∨
      (env.tv ip).upload b ty = some none) :
    process_tv env args tvip files d t u none s ip =
      ⟨files, n, [(b, ty)], .uploadFailed⟩ := by
  rcases hup with hup | hup <;>
    simp [process_tv, hsup, afterReuse, hens, uploadPhase, hup]

/-- Closed witness for the amended C6 at a device whose upload returns
Python `None`. -/
theorem C6_missing_id_witness :
    process_tv
      ⟨fun _ => some "u", fun _ _ => some (7, "jpg"), id,
        fun _ => ⟨true, fun _ => .ok, fun _ _ => some none⟩⟩
      ⟨false, false, false, false, true⟩ ["a"] [] (some 7) (some "jpg")
      (some "u") none (some "s") "a" = ⟨[], 0, [(7, "jpg")], .uploadFailed⟩ :=
  C6_missing_id_amended
    ⟨fun _ => some "u", fun _ _ => some (7, "jpg"), id,
      fun _ => ⟨true, fun _ => .ok, fun _ _ => some none⟩⟩
    ⟨false, false, false, false, true⟩ ["a"] [] (some 7) (some "jpg")
    (some "u") (some "s") "a" 7 "jpg" 0 rfl rfl (Or.inr rfl)

/-- Claim C7: a device that reports no support for art mode yields no
fetch, no upload attempt and no record — regardless of the store's
contents — and its outcome is the logged skip, not a failure. -/
theorem C7_capability_skip (env : Env) (args : Args) (tvip : List String)
    (files : List Entry) (d : Option Bytes) (t u r s : Option String)
    (ip : String) (h : (env.tv ip).supported = false) :
    process_tv env args tvip files d t u r s ip =
      ⟨files, 0, [], .notSupported⟩ := by
  simp [process_tv, h]

/-- Closed witness for C7 at a concrete unsupported device with a
non-empty store. -/
theorem C7_capability_skip_witness :
    process_tv
      ⟨fun _ => some "u", fun _ _ => some (7, "jpg"), id,
        fun _ => ⟨false, fun _ => .ok, fun _ _ => some (some "r")⟩⟩
      ⟨false, false, false, false, true⟩ ["a"]
      [⟨some "u", "r", none, some "s"⟩] none none (some "u") (some "r")
      (some "s") "a" =
      ⟨[⟨some "u", "r", none, some "s"⟩], 0, [], .notSupported⟩ :=
  C7_capability_skip
    ⟨fun _ => some "u", fun _ _ => some (7, "jpg"), id,
      fun _ => ⟨false, fun _ => .ok, fun _ _ => some (some "r")⟩⟩
    ⟨false, false, false, false, true⟩ ["a"]
    [⟨some "u", "r", none, some "s"⟩] none none (some "u") (some "r")
    (some "s") "a" rfl

/-- Claim C8: the store's persistence directory is resolved by trying the
candidates in order — the preferred directory, then the fallback — and
using the first that can be created; when neither can be created the
function returns the current working directory after logging a warning for
each failed candidate.  It always returns one of these directories (it
never raises). -/
theorem C8_dir_fallback (canCreate : String → Bool) :
    ((ensure_upload_dir canCreate).1 = PREFERRED_DIR ∨
     (ensure_upload_dir canCreate).1 = FALLBACK_DIR ∨
     (ensure_upload_dir canCreate).1 = ".") ∧
    (canCreate PREFERRED_DIR = true →
      ensure_upload_dir canCreate = (PREFERRED_DIR, [])) ∧
    (canCreate PREFERRED_DIR = false → canCreate FALLBACK_DIR = true →
      ensure_upload_dir canCreate = (FALLBACK_DIR, [.warning])) ∧
    (canCreate PREFERRED_DIR = false → canCreate FALLBACK_DIR = false →
      (ensure_upload_dir canCreate).1 = "." ∧
        LogLevel.warning ∈ (ensure_upload_dir canCreate).2) := by
  rcases h1 : canCreate PREFERRED_DIR with _ | _ <;>
    rcases h2 : canCreate FALLBACK_DIR with _ | _ <;>
      simp [ensure_upload_dir, h1, h2]

/-- Closed witness for C8: with no creatable candidate the function falls
back to the current working directory and a warning is among the logs. -/
theorem C8_dir_fallback_witness :
    (ensure_upload_dir (fun _ => false)).1 = "." ∧
      LogLevel.warning ∈ (ensure_upload_dir (fun _ => false)).2 :=
  (C8_dir_fallback (fun _ => false)).2.2.2 rfl rfl

/-- Claim C9: with at least one configured device, the device scope used by
the store is the null sentinel exactly when a single device is targeted and
the device's own address whenever more than one device is targeted;
`process_tv` inserts only records carrying that scope, removes only records
matching that scope, and the (spec-modelled) lookup keys on the very same
scope value. -/
theorem C9_device_scope (env : Env) (args : Args) (tvip : List String)
    (files : List Entry) (d : Option Bytes) (t u r s : Option String)
    (ip : String) (htv : tvip ≠ []) :
    ((scopeFor tvip ip = none ↔ tvip.length = 1) ∧
     (1 < tvip.length → scopeFor tvip ip = some ip)) ∧
    (∀ e ∈ (process_tv env args tvip files d t u r s ip).files,
      e ∈ files ∨ (e.file = u ∧ e.source = s ∧ e.tv_ip = scopeFor tvip ip)) ∧
    (∀ e ∈ files, e ∉ (process_tv env args tvip files d t u r s ip).files →
      keyMatch e u s (scopeFor tvip ip) = true) ∧
    (∀ (url2 : Option String) (sn : String),
      get_remote_filename tvip files url2 sn ip =
        (files.find? (fun e =>
          keyMatch e url2 (some sn) (scopeFor tvip ip))).map
          Entry.remote_filename) := by
  have hlen1 : 1 ≤ tvip.length := by
    rcases tvip with _ | ⟨a, tl⟩
    · exact absurd rfl htv
    · simp
  refine ⟨⟨?_, ?_⟩, process_tv_mem env args tvip files d t u r s ip,
    fun e he hout => process_tv_removed env args tvip files d t u r s ip e
      he hout, fun _ _ => rfl⟩
  · rcases Nat.lt_or_ge 1 tvip.length with hl | hl
    · rw [scopeFor, if_pos hl]
      constructor
      · intro h0
        exact Option.noConfusion h0
      · intro h1
        omega
    · have h1 : tvip.length = 1 := by omega
      rw [scopeFor, if_neg (by omega)]
      simp [h1]
  · intro hl
    rw [scopeFor, if_pos hl]

/-- Closed witness for C9 with two devices: the scope is the device's own
address and is not the shared sentinel. -/
theorem C9_device_scope_witness :
    (scopeFor ["a", "b"] "a" = none ↔ (["a", "b"] : List String).length = 1) ∧
      scopeFor ["a", "b"] "a" = some "a" := by
  have h := C9_device_scope
    ⟨fun _ => none, fun _ _ => none, id,
      fun _ => ⟨false, fun _ => .ok, fun _ _ => none⟩⟩
    ⟨false, false, false, false, true⟩ ["a", "b"] [] none none none none none
    "a" (by decide)
  exact ⟨h.1.1, h.1.2 (by decide)⟩

/-- Claim C10: when the stored artifact fails select and the subsequent
re-fetch/preparation also fails, the old record has already been removed
and no new record is written: the key ends the run with no record at all,
and the store is not left unchanged when a matching record existed. -/
theorem C10_stale_then_prep_fail (env : Env) (args : Args)
    (tvip : List String) (files : List Entry) (d : Option Bytes)
    (t u s : Option String) (ip rf : String) (n : Nat)
    (hsup : (env.tv ip).supported = true)
    (hua : args.upload_all = false)
    (hsel : (env.tv ip).select rf ≠ .ok)
    (hens : ensure_image_data env d t s u = (none, n)) :
    process_tv env args tvip files d t u (some rf) s ip =
      ⟨remove_uploaded_entry tvip files u s ip, n, [], .prepFailed⟩ ∧
    (∀ e ∈ (process_tv env args tvip files d t u (some rf) s ip).files,
      keyMatch e u s (scopeFor tvip ip) = false) ∧
    ((∃ e ∈ files, keyMatch e u s (scopeFor tvip ip) = true) →
      (process_tv env args tvip files d t u (some rf) s ip).files ≠ files) := by
  have heq : process_tv env args tvip files d t u (some rf) s ip =
      ⟨remove_uploaded_entry tvip files u s ip, n, [], .prepFailed⟩ := by
    rcases hsel0 : (env.tv ip).select rf with _ | _ | _
    · exact absurd hsel0 hsel
    · simp [process_tv, hsup, hua, hsel0, afterReuse, hens]
    · simp [process_tv, hsup, hua, hsel0, afterReuse, hens]
  refine ⟨heq, ?_, ?_⟩
  · rw [heq]
    intro e he
    exact keyMatch_of_mem_remove he
  · rintro ⟨e, he, hk⟩ hfe
    rw [heq] at hfe
    rw [← hfe] at he
    rw [keyMatch_of_mem_remove he] at hk
    exact Bool.noConfusion hk

/-- Closed witness for C10: the stale record is removed, the re-fetch
fails, and the key is left with no record. -/
theorem C10_stale_then_prep_fail_witness :
    process_tv
      ⟨fun _ => some "u", fun _ _ => none, id,
        fun _ => ⟨true, fun _ => .otherError, fun _ _ => none⟩⟩
      ⟨false, false, false, false, true⟩ ["a"]
      [⟨some "u", "old", none, some "sources.media_folder"⟩] none none
      (some "u") (some "old") (some "sources.media_folder") "a" =
      ⟨[], 1, [], .prepFailed⟩ := by
  have h := C10_stale_then_prep_fail
    ⟨fun _ => some "u", fun _ _ => none, id,
      fun _ => ⟨true, fun _ => .otherError, fun _ _ => none⟩⟩
    ⟨false, false, false, false, true⟩ ["a"]
    [⟨some "u", "old", none, some "sources.media_folder"⟩] none none
    (some "u") (some "sources.media_folder") "a" "old" 1 rfl rfl (by decide)
    rfl
  rw [h.1]
  decide

/-- Claim C1 counterexample: in shared-image mode with a duplicated device
address, the pre-loop lookup table is computed against the initial store,
so the second iteration inserts a second record for the very same
`(image_identifier, source_name, device_scope)` key without any preceding
removal — the uniqueness invariant fails on a run from the empty store. -/
theorem C1_uniqueness_cex :
    ¬ (((runSameImage
      ⟨fun _ => some "u", fun _ _ => some (7, "jpg"), id,
        fun _ => ⟨true, fun _ => .ok, fun _ _ => some (some "r")⟩⟩
      ⟨false, true, false, false, true⟩ ["a", "a"] "sources.media_folder"
      []).files.map entryKey).Nodup) := by
  decide

/-- Claim C1 (amended): provided the configured device list has no
duplicated address, every stored record carries a non-empty artifact id,
and the devices never acknowledge an upload with an empty-string id, every
run preserves the store invariant: at most one record per
`(image_identifier, source_name, device_scope)` key (and non-empty ids). -/
theorem C1_uniqueness_amended (env : Env) (args : Args) (tvip : List String)
    (sharedPick : String) (picks : List String) (files0 : List Entry)
    (hg : goodStore files0) (hnd : tvip.Nodup)
    (hup : ∀ ip b t r, (env.tv ip).upload b t = some (some r) → r ≠ "") :
    goodStore ((mainRun env args tvip sharedPick picks files0).files) := by
  unfold mainRun
  split
  · exact hg
  · split
    · exact hg
    · split
      next hcond =>
        exact runSameImage_good env args tvip sharedPick files0 hup hg hnd
          hcond.1
      next =>
        exact runDistinct_good env args tvip picks files0 hup hg

/-- Closed witness for the amended C1 on a single-device run whose uploads
always raise. -/
theorem C1_uniqueness_witness :
    goodStore ((mainRun
      ⟨fun _ => some "u", fun _ _ => some (7, "jpg"), id,
        fun _ => ⟨true, fun _ => .ok, fun _ _ => none⟩⟩
      ⟨false, false, false, false, true⟩ ["a"] "sources.media_folder"
      ["sources.media_folder"] []).files) :=
  C1_uniqueness_amended
    ⟨fun _ => some "u", fun _ _ => some (7, "jpg"), id,
      fun _ => ⟨true, fun _ => .ok, fun _ _ => none⟩⟩
    ⟨false, false, false, false, true⟩ ["a"] "sources.media_folder"
    ["sources.media_folder"] [] (by decide) (by decide)
    (fun ip b t r h => by exact Option.noConfusion h)

/-- Claim C2 counterexample: a stored record whose artifact id is the empty
string is falsy under the `if remote_filename:` check of
`get_image_for_tv`, so even though forced re-upload is off and the device
accepts every select, processing that device fetches and uploads again. -/
theorem C2_idempotence_cex :
    (runDistinct
      ⟨fun _ => some "u", fun _ _ => some (7, "jpg"), id,
        fun _ => ⟨true, fun _ => .ok, fun _ _ => some (some "r")⟩⟩
      ⟨false, false, false, false, true⟩ ["a"] ["sources.media_folder"]
      [⟨some "u", "", none, some "sources.media_folder"⟩]).uploads =
      [("a", 7, "jpg")] := by
  decide

/-- Claim C2 (amended): when forced re-upload is off and every targeted
device supports art mode, holds a stored record with a non-empty artifact
id, and accepts the select of that id, the distinct-image run performs no
image fetch, no preparation and no upload, and leaves the store unchanged —
hence a second run over unchanged inputs performs zero uploads. -/
theorem C2_idempotence_amended (env : Env) (args : Args) (tvip : List String)
    (picks : List String) (files0 : List Entry)
    (hua : args.upload_all = false)
    (hall : ∀ p ∈ tvip.zip picks,
      (env.tv p.1).supported = true ∧
      ∃ r, get_remote_filename tvip files0 (env.get_image_url p.2) p.2 p.1
          = some r ∧ r ≠ "" ∧ (env.tv p.1).select r = .ok) :
    runDistinct env args tvip picks files0 = ⟨files0, 0, [], none⟩ := by
  unfold runDistinct
  generalize tvip.zip picks = l at hall
  induction l with
  | nil => rfl
  | cons p l ih =>
    obtain ⟨hsup, r, hr, hrne, hsel⟩ := hall p (List.mem_cons_self p l)
    have hg : get_image_for_tv env tvip files0 p.2 p.1 =
        ⟨none, none, env.get_image_url p.2, some r, some p.2, 0⟩ := by
      simp [get_image_for_tv, hr, hrne]
    have hp2 : process_tv env args tvip files0 none none
        (env.get_image_url p.2) (some r) (some p.2) p.1 =
        ⟨files0, 0, [], .selected⟩ := by
      simp [process_tv, hsup, hua, hsel]
    have hstep : stepDistinct env args tvip ⟨files0, 0, [], none⟩ p =
        ⟨files0, 0, [], none⟩ := by
      simp [stepDistinct, hg, hp2]
    rw [List.foldl_cons, hstep]
    exact ih (fun q hq => hall q (List.mem_cons_of_mem p hq))

/-- Closed witness for the amended C2: a device with a stored record and an
accepting select produces a run with zero fetches, zero uploads and an
unchanged store. -/
theorem C2_idempotence_witness :
    runDistinct
      ⟨fun _ => some "u", fun _ _ => some (7, "jpg"), id,
        fun _ => ⟨true, fun _ => .ok, fun _ _ => some (some "r2")⟩⟩
      ⟨false, false, false, false, true⟩ ["a"] ["sources.media_folder"]
      [⟨some "u", "r", none, some "sources.media_folder"⟩] =
      ⟨[⟨some "u", "r", none, some "sources.media_folder"⟩], 0, [], none⟩ := by
  refine C2_idempotence_amended
    ⟨fun _ => some "u", fun _ _ => some (7, "jpg"), id,
      fun _ => ⟨true, fun _ => .ok, fun _ _ => some (some "r2")⟩⟩
    ⟨false, false, false, false, true⟩ ["a"] ["sources.media_folder"]
    [⟨some "u", "r", none, some "sources.media_folder"⟩] rfl ?_
  intro p hp
  have hp2 : p = ("a", "sources.media_folder") := by
    simpa using hp
  subst hp2
  exact ⟨rfl, "r", by decide, by decide, rfl⟩

/-- Claim C4 counterexample: in shared-image mode, when every device
already holds a record but the stored artifacts turn out stale, each device
falls into its own `ensure_image_data` re-fetch: the fetch/prepare step
executes once per stale device (twice here), not at most once per run. -/
theorem C4_single_fetch_cex :
    (runSameImage
      ⟨fun _ => some "u", fun _ _ => some (7, "jpg"), id,
        fun _ => ⟨true, fun _ => .responseError, fun _ _ => some (some "r")⟩⟩
      ⟨false, true, false, false, true⟩ ["a", "b"] "sources.media_folder"
      [⟨some "u", "r1", some "a", some "sources.media_folder"⟩,
       ⟨some "u", "r2", some "b", some "sources.media_folder"⟩]).fetches
      = 2 := by
  decide

/-- Claim C4 (amended): in shared-image mode, provided no device with a
stored record fails the select of that record (and forced re-upload is
off), the fetch/prepare step executes at most once per run; it is skipped
exactly when every device already holds a usable record, and the single
prepared buffer is the one handed to every upload that occurs.  Devices
whose stored records fail select would instead trigger their own
per-device re-fetches. -/
theorem C4_single_fetch_amended (env : Env) (args : Args)
    (tvip : List String) (srcName : String) (files0 : List Entry)
    (hua : args.upload_all = false)
    (hstale : ∀ ip ∈ tvip, ∀ r,
      get_remote_filename tvip files0 (env.get_image_url srcName) srcName ip
        = some r →
      r ≠ "" → (env.tv ip).supported = true → (env.tv ip).select r = .ok) :
    (runSameImage env args tvip srcName files0).fetches ≤ 1 ∧
    (truthy (env.get_image_url srcName) = true →
      ((runSameImage env args tvip srcName files0).fetches = 0 ↔
        ∀ ip ∈ tvip, truthy (get_remote_filename tvip files0
          (env.get_image_url srcName) srcName ip) = true)) ∧
    (∀ u2 ∈ (runSameImage env args tvip srcName files0).uploads,
      ∃ orig ft,
        env.get_image srcName (env.get_image_url srcName) = some (orig, ft) ∧
        u2.2.1 = env.resize orig ∧ u2.2.2 = ft) := by
  unfold runSameImage
  split
  next hurl =>
    refine ⟨by simp, ?_, by simp⟩
    intro h
    rw [h] at hurl
    exact Bool.noConfusion hurl
  next hurl =>
    split
    next hfil =>
      have hall : ∀ ip ∈ tvip, truthy (get_remote_filename tvip files0
          (env.get_image_url srcName) srcName ip) = true := by
        intro ip hip
        have h1 := List.filter_eq_nil_iff.mp hfil ip hip
        simpa using h1
      rw [sameImage_fold_noop env args tvip files0 (env.get_image_url srcName)
        srcName hua tvip ⟨files0, 0, [], none⟩ (fun ip hip => hstale ip hip)
        hall]
      exact ⟨by simp, fun _ => ⟨fun _ => hall, fun _ => rfl⟩, by simp⟩
    next hfil =>
      have hex : ∃ ip ∈ tvip, truthy (get_remote_filename tvip files0
          (env.get_image_url srcName) srcName ip) = false := by
        obtain ⟨x, hx⟩ := List.exists_mem_of_ne_nil _ hfil
        have hx2 := List.mem_filter.mp hx
        exact ⟨x, hx2.1, by simpa using hx2.2⟩
      split
      next horig =>
        refine ⟨by simp, ?_, by simp⟩
        intro _
        constructor
        · intro h0
          exact absurd h0 (by simp)
        · intro hallt
          obtain ⟨ip, hip, hf⟩ := hex
          rw [hallt ip hip] at hf
          exact absurd hf (by simp)
      next orig ft horig =>
        have hB := sameImage_fold_prefetched env args tvip files0
          (env.get_image_url srcName) srcName (env.resize orig) ft tvip
          ⟨files0, 1, [], none⟩
        refine ⟨?_, ?_, ?_⟩
        · rw [hB.1]
        · intro _
          constructor
          · intro h0
            rw [hB.1] at h0
            exact absurd h0 (by simp)
          · intro hallt
            obtain ⟨ip, hip, hf⟩ := hex
            rw [hallt ip hip] at hf
            exact absurd hf (by simp)
        · intro u2 hu2
          rcases hB.2 u2 hu2 with h | ⟨h1, h2⟩
          · exact absurd h (by simp)
          · exact ⟨orig, ft, horig, h1, h2⟩

/-- Closed witness for the amended C4: two record-less devices, a single
fetch for the whole run. -/
theorem C4_single_fetch_witness :
    (runSameImage
      ⟨fun _ => some "u", fun _ _ => some (7, "jpg"), id,
        fun _ => ⟨true, fun _ => .ok, fun _ _ => some (some "r")⟩⟩
      ⟨false, true, false, false, true⟩ ["a", "b"] "sources.media_folder"
      []).fetches ≤ 1 := by
  refine (C4_single_fetch_amended
    ⟨fun _ => some "u", fun _ _ => some (7, "jpg"), id,
      fun _ => ⟨true, fun _ => .ok, fun _ _ => some (some "r")⟩⟩
    ⟨false, true, false, false, true⟩ ["a", "b"] "sources.media_folder" []
    rfl ?_).1
  intro ip hip r hr
  exact absurd hr (by simp [get_remote_filename])

/-- Claim C5 counterexample: in shared-image mode a failed source fetch is
fatal — the run exits with status 1 (art.py line 242) before any device is
processed — so a per-source failure can terminate the process. -/
theorem C5_no_abort_cex :
    (mainRun
      ⟨fun _ => some "u", fun _ _ => none, id,
        fun _ => ⟨true, fun _ => .ok, fun _ _ => some (some "r")⟩⟩
      ⟨false, true, false, false, true⟩ ["a", "b"] "sources.media_folder" []
      []).exited = some 1 := by
  decide

/-- Claim C5 (amended): the process exits (status 1) exactly when no source
is configured, no device is configured, or — in shared-image mode with more
than one device — the source yields no usable image URL or some device
lacks a record and the single up-front fetch fails.  In distinct-image mode
no per-device or per-source failure ever terminates the run, and upload
failures and missing capability never terminate it in either mode. -/
theorem C5_no_abort_amended (env : Env) (args : Args) (tvip : List String)
    (sharedPick : String) (picks : List String) (files0 : List Entry) :
    (mainRun env args tvip sharedPick picks files0).exited = some 1 ↔
      (configuredSources args = [] ∨ tvip = [] ∨
        (1 < tvip.length ∧ args.same_image = true ∧
          (truthy (env.get_image_url sharedPick) = false ∨
            ((∃ ip ∈ tvip, truthy (get_remote_filename tvip files0
                (env.get_image_url sharedPick) sharedPick ip) = false) ∧
             env.get_image sharedPick (env.get_image_url sharedPick)
               = none)))) := by
  unfold mainRun
  split
  next hA =>
    constructor
    · intro _
      exact Or.inl hA
    · intro _
      rfl
  next hA =>
    split
    next hB =>
      constructor
      · intro _
        exact Or.inr (Or.inl hB)
      · intro _
        rfl
    next hB =>
      split
      next hcond =>
        rw [runSameImage_exited]
        constructor
        · intro h
          exact Or.inr (Or.inr ⟨hcond.1, hcond.2, h⟩)
        · rintro (h | h | ⟨_, _, h⟩)
          · exact absurd h hA
          · exact absurd h hB
          · exact h
      next hcond =>
        rw [runDistinct_exited]
        constructor
        · intro h0
          exact Option.noConfusion h0
        · rintro (h | h | ⟨h1, h2, _⟩)
          · exact absurd h hA
          · exact absurd h hB
          · exact absurd ⟨h1, h2⟩ hcond

/-- Closed witness for the amended C5: with no source flag set, the run
exits with status 1 before any device-level work. -/
theorem C5_no_abort_witness :
    (mainRun
      ⟨fun _ => none, fun _ _ => none, id,
        fun _ => ⟨false, fun _ => .ok, fun _ _ => none⟩⟩
      ⟨false, false, false, false, false⟩ ["a"] "s" [] []).exited = some 1 :=
  (C5_no_abort_amended
    ⟨fun _ => none, fun _ _ => none, id,
      fun _ => ⟨false, fun _ => .ok, fun _ _ => none⟩⟩
    ⟨false, false, false, false, false⟩ ["a"] "s" [] []).mpr (Or.inl rfl)

end FrameArt
